import Mathlib

/-!
Verification of the CDN endpoint-health registry of `py12306/helpers/cdn.py`.

The module is embedded shallowly: Python objects become Lean structures,
in-place mutation becomes explicit state passing on an immutable list,
Python's float arithmetic is modelled over `ℚ`, and operations that can
raise an exception (`dict[key]` → `KeyError`, `random.choice([])` →
`IndexError`) return `Except String _`.

Conventions:
* `CdnItem` mirrors the class of the same name; counters are `ℕ`,
  delays and derived scores are `ℚ`.
* The registry state is the list `cdn_list`; the Python `cdn_map`
  (host → object) is realised as lookup-by-host in that list.  Hosts of
  distinct items are assumed pairwise distinct where a theorem needs the
  map/list correspondence (`cdn_map` keys are unique by construction in
  `load_items`).
* `list_index` is modelled as `ℕ`; Python initialises it to `None`, but
  `load_items` / `resort_cdn_list` assign it before any use.
-/

namespace Py12306

/-- Class constants of `CdnItem` (cdn.py lines 19–23). -/
def SUCCESS_RATE_WEIGHT : ℚ := 10000

/-- Baseline delay in milliseconds (cdn.py line 20). -/
def BASE_DELAY_MS : ℚ := 1000

/-- Weight of the delay score term (cdn.py line 21). -/
def AVG_DELAY_WEIGHT : ℚ := 1000

/-- Capacity of the recent-delay window (cdn.py line 23). -/
def MAX_DELAY_DATA : Nat := 10

/-- One CDN endpoint's accumulated statistics (class `CdnItem`, cdn.py
lines 14–35). -/
structure CdnItem where
  host : String
  list_index : Nat
  request_count : Nat
  success_count : Nat
  delay_data : List ℚ
  delay_count : ℚ
  delay_rate_score : ℚ
  weight : ℚ
deriving Repr, DecidableEq

/-- `CdnItem.__init__` (cdn.py lines 25–35).  Python sets
`list_index = None`; it is assigned before use, modelled as `0`. -/
def CdnItem.init (host : String) : CdnItem :=
  { host := host
    list_index := 0
    request_count := 0
    success_count := 0
    delay_data := []
    delay_count := 0
    delay_rate_score := 0
    weight := 0 }

/-- `CdnItem.add_request_result` (cdn.py lines 37–57). -/
def CdnItem.add_request_result (s : CdnItem) (delay : ℚ) (success : Bool) : CdnItem :=
  let s1 : CdnItem := { s with request_count := s.request_count + 1 }
  let s2 : CdnItem :=
    if success then
      let a : CdnItem := { s1 with success_count := s1.success_count + 1 }
      let b : CdnItem :=
        if MAX_DELAY_DATA ≤ a.delay_data.length then
          match a.delay_data with
          | [] => a
          | x :: rest => { a with delay_data := rest, delay_count := a.delay_count - x }
        else a
      let c : CdnItem := { b with delay_count := b.delay_count + delay,
                                  delay_data := b.delay_data ++ [delay] }
      let avg_delay : ℚ := c.delay_count / (c.delay_data.length : ℚ)
      let score : ℚ := (BASE_DELAY_MS - avg_delay) / BASE_DELAY_MS
      { c with delay_rate_score := if 0 < score then score else 0 }
    else s1
  let success_rate : ℚ := (s2.success_count : ℚ) / (s2.request_count : ℚ)
  { s2 with weight := success_rate * SUCCESS_RATE_WEIGHT + s2.delay_rate_score * AVG_DELAY_WEIGHT }

/-- Helper for `load_items`: builds the `cdn_list`, assigning
`cdn_item.list_index = len(self.cdn_list)` at each append
(cdn.py lines 138–142). -/
def loadAux : Nat → List String → List CdnItem
  | _, [] => []
  | i, h :: hs => { CdnItem.init h with list_index := i } :: loadAux (i + 1) hs

/-- `Cdn.load_items` (cdn.py lines 133–144): one `CdnItem` per host line,
appended in file order with `list_index` equal to its position. -/
def load_items (hosts : List String) : List CdnItem :=
  loadAux 0 hosts

/-- One step of the backward bubble walk of `report_cdn_result`
(cdn.py lines 230–236): for `i` from `list_index - 1` down to `0`, while
`new_weight > cdn_list[i].weight`, the code sets
`cdn_list[i].list_index = i + 1`, `cdn_list[i + 1] = cdn_list[i]` and
`cdn_list[i] = cdn_item`, otherwise it breaks.  Note the source never
reassigns `cdn_item.list_index` itself. -/
def bubbleUp (item : CdnItem) (w : ℚ) : Nat → List CdnItem → List CdnItem
  | i, l =>
    match l[i]? with
    | none => l
    | some n =>
      if n.weight < w then
        let l' := (l.set (i + 1) { n with list_index := i + 1 }).set i item
        match i with
        | 0 => l'
        | j + 1 => bubbleUp item w j l'
      else l

/-- One step of the forward bubble walk of `report_cdn_result`
(cdn.py lines 239–245): for `i` from `list_index + 1` up to the end of the
list, while `new_weight <= cdn_list[i].weight`, the code sets
`cdn_list[i].list_index = i - 1`, `cdn_list[i - 1] = cdn_list[i]` and
`cdn_list[i] = cdn_item`, otherwise it breaks.  As in `bubbleUp`, the
source never reassigns `cdn_item.list_index`. -/
def bubbleDown (item : CdnItem) (w : ℚ) (i : Nat) (l : List CdnItem) : List CdnItem :=
  match h : l[i]? with
  | none => l
  | some n =>
    if w ≤ n.weight then
      bubbleDown item w (i + 1) ((l.set (i - 1) { n with list_index := i - 1 }).set i item)
    else l
termination_by l.length - i
decreasing_by
  have hi : i < l.length := (List.getElem?_eq_some_iff.mp h).1
  simp only [List.length_set]
  omega

/-- `Cdn.report_cdn_result` (cdn.py lines 213–245).  `self.cdn_map[host]`
raises `KeyError` for an untracked host (the subsequent
`if not cdn_item` guard is unreachable, as a found `CdnItem` object is
always truthy), modelled as `Except.error`.  The object mutation
`cdn_item.add_request_result(...)` takes effect at the item's actual
position in `cdn_list` (the aliased object), while the bubble walk starts
from its stored `list_index`. -/
def report_cdn_result (l : List CdnItem) (host : String) (delay : ℚ) (success : Bool) :
    Except String (List CdnItem) :=
  match l.findIdx? (fun c => c.host == host) with
  | none => Except.error ("KeyError: " ++ host)
  | some q =>
    match l[q]? with
    | none => Except.error "unreachable"
    | some c =>
      let c' := c.add_request_result delay success
      let w := c'.weight
      let l1 := l.set q c'
      let p := c'.list_index
      let condUp : Bool := decide (0 < p) &&
        (match l1[p - 1]? with
         | some n => decide (n.weight < w)
         | none => false)
      if condUp then Except.ok (bubbleUp c' w (p - 1) l1)
      else
        let condDown : Bool := decide (p < l1.length - 1) &&
          (match l1[p + 1]? with
           | some n => decide (w ≤ n.weight)
           | none => false)
        if condDown then Except.ok (bubbleDown c' w (p + 1) l1)
        else Except.ok l1

/-- `Cdn.get_cdn` (cdn.py lines 247–254): `random.choice(self.cdn_list[0:100])`
followed by `.host`.  The random draw is modelled by an arbitrary natural
`k`, reduced modulo the slice length; `random.choice` on the empty slice
raises `IndexError`, modelled as `Except.error`. -/
def get_cdn (l : List CdnItem) (k : Nat) : Except String String :=
  let top := l.take 100
  if h : top = [] then Except.error "IndexError"
  else
    Except.ok (top.get ⟨k % top.length, Nat.mod_lt _ (List.length_pos.mpr h)⟩).host

/-- One persisted record of the snapshot (`CdnItemEncoder.default`,
cdn.py lines 60–64). -/
structure SnapRecord where
  host : String
  request_count : Nat
  success_count : Nat
  weight : ℚ
deriving Repr, DecidableEq

/-- The parsed snapshot dictionary (cdn.py lines 160–175, 192–195).
`version = none` models a dictionary without a `version` key
(`result.get('version', 1)` then defaults to `1`). -/
structure Snapshot where
  version : Option Int
  last_check_at : Option String
  cdn_list : List SnapRecord
deriving Repr, DecidableEq

/-- `Cdn.resort_cdn_list` (cdn.py lines 184–190): a stable full sort of
`cdn_list` by `weight` descending (Python's stable `sort` with
`reverse=True`), then `cdn_list[i].list_index = i` for every `i`. -/
def assignIdx : Nat → List CdnItem → List CdnItem
  | _, [] => []
  | i, c :: cs => { c with list_index := i } :: assignIdx (i + 1) cs

/-- The full resort performed when restoring from a file (cdn.py
lines 184–190). -/
def resort_cdn_list (l : List CdnItem) : List CdnItem :=
  assignIdx 0 (l.mergeSort (fun a b => decide (b.weight ≤ a.weight)))

/-- `Cdn.save_available_items` (cdn.py lines 192–198) as a codec: the
written JSON is `{'version': 2, 'last_check_at': str(now), 'cdn_list': ...}`
with `cdn_list` serialised record-by-record by `CdnItemEncoder`. -/
def save_available_items (l : List CdnItem) (now : String) : Snapshot :=
  { version := some 2
    last_check_at := some now
    cdn_list := l.map (fun c =>
      { host := c.host
        request_count := c.request_count
        success_count := c.success_count
        weight := c.weight }) }

/-- One iteration of the restore loop (cdn.py lines 171–175):
`cdn_item = self.cdn_map[x.get('host')]` raises `KeyError` when the
record's host is untracked; otherwise the record's fields overwrite the
tracked item's in place. -/
def applyRecord (l : List CdnItem) (r : SnapRecord) : Except String (List CdnItem) :=
  if l.any (fun c => c.host == r.host) then
    Except.ok (l.map (fun c =>
      if c.host == r.host then
        { c with request_count := r.request_count
                 success_count := r.success_count
                 weight := r.weight }
      else c))
  else Except.error ("KeyError: " ++ r.host)

/-- The restore loop over all persisted records (cdn.py lines 171–175). -/
def applyRecords (l : List CdnItem) : List SnapRecord → Except String (List CdnItem)
  | [] => Except.ok l
  | r :: rs =>
    match applyRecord l r with
    | Except.ok l' => applyRecords l' rs
    | Except.error e => Except.error e

/-- `Cdn.restore_items` (cdn.py lines 146–182).  `snap = none` models a
missing file, malformed JSON (`result = {}`) or an empty dictionary, all
of which fail the `if result:` test and return `False` leaving the
registry untouched.  A present snapshot with `version <= 1` (the default
when the key is absent) is discarded, also returning `False`.  Otherwise
every record is applied and the list is fully resorted; the boolean is
the function's return value. -/
def restore_items (l : List CdnItem) (snap : Option Snapshot) :
    Except String (List CdnItem × Bool) :=
  match snap with
  | none => Except.ok (l, false)
  | some s =>
    if (s.version.getD 1) ≤ 1 then Except.ok (l, false)
    else
      match applyRecords l s.cdn_list with
      | Except.error e => Except.error e
      | Except.ok l' => Except.ok (resort_cdn_list l', true)

/-! ## Helper lemmas about `CdnItem.add_request_result` -/

/-- The truncated positive part used for the delay score (cdn.py line 53)
is the max with zero. -/
theorem clampPos (x : ℚ) : (if 0 < x then x else 0) = max 0 x := by
  rcases lt_or_le 0 x with h | h
  · simp [h, max_eq_right h.le]
  · simp [not_lt.mpr h, max_eq_left h]

/-- Field-by-field description of a successful `add_request_result`. -/
theorem add_success_fields (s : CdnItem) (delay : ℚ) :
    ((s.add_request_result delay true).request_count = s.request_count + 1) ∧
    ((s.add_request_result delay true).success_count = s.success_count + 1) ∧
    ((s.add_request_result delay true).delay_data =
      (if MAX_DELAY_DATA ≤ s.delay_data.length then s.delay_data.tail else s.delay_data) ++ [delay]) ∧
    ((s.add_request_result delay true).delay_count =
      (if MAX_DELAY_DATA ≤ s.delay_data.length then s.delay_count - s.delay_data.headI
        else s.delay_count) + delay) := by
  simp only [CdnItem.add_request_result]
  by_cases hc : MAX_DELAY_DATA ≤ s.delay_data.length
  · cases h : s.delay_data with
    | nil => rw [h] at hc; simp [MAX_DELAY_DATA] at hc
    | cons x rest =>
        rw [h] at hc
        have hc' : MAX_DELAY_DATA ≤ rest.length + 1 := by simpa using hc
        simp only [h]
        simp [hc']
  · simp [hc]

/-- Field-by-field description of a failed `add_request_result`: only
`request_count` and `weight` change. -/
theorem add_failure_fields (s : CdnItem) (delay : ℚ) :
    ((s.add_request_result delay false).request_count = s.request_count + 1) ∧
    ((s.add_request_result delay false).success_count = s.success_count) ∧
    ((s.add_request_result delay false).delay_data = s.delay_data) ∧
    ((s.add_request_result delay false).delay_count = s.delay_count) ∧
    ((s.add_request_result delay false).delay_rate_score = s.delay_rate_score) ∧
    ((s.add_request_result delay false).host = s.host) ∧
    ((s.add_request_result delay false).list_index = s.list_index) := by
  simp [CdnItem.add_request_result]

/-- The weight written by `add_request_result` (cdn.py line 57) is always
the formula over the resulting state's own counters and score. -/
theorem add_weight_eq (s : CdnItem) (delay : ℚ) (success : Bool) :
    (s.add_request_result delay success).weight =
      ((s.add_request_result delay success).success_count : ℚ) /
        ((s.add_request_result delay success).request_count : ℚ) * SUCCESS_RATE_WEIGHT +
      (s.add_request_result delay success).delay_rate_score * AVG_DELAY_WEIGHT := by
  cases success <;> simp [CdnItem.add_request_result]

/-- The delay score after a successful report is the clamped baseline
formula over the resulting window. -/
theorem add_score_success (s : CdnItem) (delay : ℚ) :
    (s.add_request_result delay true).delay_rate_score =
      max 0 ((BASE_DELAY_MS - (s.add_request_result delay true).delay_count /
        (((s.add_request_result delay true).delay_data.length : ℚ))) / BASE_DELAY_MS) := by
  simp [CdnItem.add_request_result, clampPos]

/-- `delay_count` keeps tracking the sum of the window across any report. -/
theorem add_delay_count_sum (s : CdnItem) (delay : ℚ) (success : Bool)
    (hsum : s.delay_count = s.delay_data.sum) :
    (s.add_request_result delay success).delay_count =
      (s.add_request_result delay success).delay_data.sum := by
  cases success with
  | false =>
      obtain ⟨-, -, hd, hcnt, -⟩ := add_failure_fields s delay
      rw [hd, hcnt, hsum]
  | true =>
      obtain ⟨-, -, hd, hcnt⟩ := add_success_fields s delay
      rw [hd, hcnt, hsum]
      by_cases hc : MAX_DELAY_DATA ≤ s.delay_data.length
      · cases h : s.delay_data with
        | nil => rw [h] at hc; simp [MAX_DELAY_DATA] at hc
        | cons x rest =>
            rw [h] at hc
            have hc' : MAX_DELAY_DATA ≤ 1 + rest.length := by simpa [Nat.add_comm] using hc
            split <;> simp_all
      · simp [hc]

/-! ## Claim theorems about `CdnItem.add_request_result` -/

/-- C3: after every `add_request_result` call with success count `S`,
request count `T`, and delay-window average `A` over the current window,
the weight equals exactly `(S/T)*10000 + max(0, (1000-A)/1000)*1000`,
where the delay-score term is the last computed delay score if the call
reported a failure.  The hypothesis states that the running `delay_count`
is the sum of the window, the invariant maintained by every call. -/
theorem C3_weight_formula (s : CdnItem) (delay : ℚ) (success : Bool)
    (hsum : s.delay_count = s.delay_data.sum) :
    (s.add_request_result delay success).weight =
      ((s.add_request_result delay success).success_count : ℚ) /
        ((s.add_request_result delay success).request_count : ℚ) * 10000 +
      (if success = true then
          max 0 ((1000 - (s.add_request_result delay success).delay_data.sum /
            (((s.add_request_result delay success).delay_data.length : ℚ))) / 1000)
        else s.delay_rate_score) * 1000 := by
  rw [add_weight_eq]
  cases success with
  | false =>
      obtain ⟨-, -, -, -, hscore, -, -⟩ := add_failure_fields s delay
      rw [hscore]
      norm_num [SUCCESS_RATE_WEIGHT, AVG_DELAY_WEIGHT]
  | true =>
      rw [add_score_success, add_delay_count_sum s delay true hsum]
      norm_num [SUCCESS_RATE_WEIGHT, AVG_DELAY_WEIGHT, BASE_DELAY_MS]

/-- Witness for C3 at the concrete input `CdnItem.init "h"`, delay 200,
success. -/
theorem C3_weight_formula_witness :
    ((CdnItem.init "h").add_request_result 200 true).weight =
      (((CdnItem.init "h").add_request_result 200 true).success_count : ℚ) /
        (((CdnItem.init "h").add_request_result 200 true).request_count : ℚ) * 10000 +
      (if true = true then
          max 0 ((1000 - ((CdnItem.init "h").add_request_result 200 true).delay_data.sum /
            ((((CdnItem.init "h").add_request_result 200 true).delay_data.length : ℚ))) / 1000)
        else (CdnItem.init "h").delay_rate_score) * 1000 :=
  C3_weight_formula (CdnItem.init "h") 200 true rfl

/-- C4: a failed `add_request_result` increments `request_count` by one,
leaves `success_count`, the delay window, `delay_count` and
`delay_rate_score` unchanged, and recomputes the weight from the updated
success rate and the unchanged delay score. -/
theorem C4_failure_frame (s : CdnItem) (delay : ℚ) :
    ((s.add_request_result delay false).request_count = s.request_count + 1) ∧
    ((s.add_request_result delay false).success_count = s.success_count) ∧
    ((s.add_request_result delay false).delay_data = s.delay_data) ∧
    ((s.add_request_result delay false).delay_count = s.delay_count) ∧
    ((s.add_request_result delay false).delay_rate_score = s.delay_rate_score) ∧
    ((s.add_request_result delay false).weight =
      (s.success_count : ℚ) / ((s.request_count : ℚ) + 1) * 10000 +
        s.delay_rate_score * 1000) := by
  simp [CdnItem.add_request_result, SUCCESS_RATE_WEIGHT, AVG_DELAY_WEIGHT]

/-- C5: the delay window never exceeds 10 samples; at capacity a
successful report drops the oldest sample first (FIFO) and `delay_count`
remains the sum of the samples currently in the window (it is first
decremented by the evicted value); both halves of the invariant hold in
the freshly initialised item. -/
theorem C5_delay_window (s : CdnItem) (delay : ℚ) (success : Bool) (host : String)
    (hlen : s.delay_data.length ≤ MAX_DELAY_DATA)
    (hsum : s.delay_count = s.delay_data.sum) :
    ((s.add_request_result delay success).delay_data.length ≤ MAX_DELAY_DATA) ∧
    ((s.add_request_result delay success).delay_count =
      (s.add_request_result delay success).delay_data.sum) ∧
    (success = true → s.delay_data.length = MAX_DELAY_DATA →
      (s.add_request_result delay success).delay_data = s.delay_data.tail ++ [delay]) ∧
    ((CdnItem.init host).delay_data.length ≤ MAX_DELAY_DATA) ∧
    ((CdnItem.init host).delay_count = (CdnItem.init host).delay_data.sum) := by
  refine ⟨?_, add_delay_count_sum s delay success hsum, ?_,
    by simp [CdnItem.init, MAX_DELAY_DATA], by simp [CdnItem.init]⟩
  · cases success with
    | false =>
        obtain ⟨-, -, hd, -, -, -, -⟩ := add_failure_fields s delay
        rw [hd]; exact hlen
    | true =>
        obtain ⟨-, -, hd, -⟩ := add_success_fields s delay
        rw [hd]
        simp only [MAX_DELAY_DATA] at hlen ⊢
        by_cases hc : 10 ≤ s.delay_data.length
        · simp [hc, List.length_tail]
          omega
        · simp [hc]
          omega
  · intro hs hcap
    subst hs
    obtain ⟨-, -, hd, -⟩ := add_success_fields s delay
    rw [hd, if_pos (by omega)]

/-- Witness for C5 at the concrete input `CdnItem.init "h"`, delay 100,
success. -/
theorem C5_delay_window_witness :
    (((CdnItem.init "h").add_request_result 100 true).delay_data.length ≤ MAX_DELAY_DATA) ∧
    (((CdnItem.init "h").add_request_result 100 true).delay_count =
      ((CdnItem.init "h").add_request_result 100 true).delay_data.sum) ∧
    (true = true → (CdnItem.init "h").delay_data.length = MAX_DELAY_DATA →
      ((CdnItem.init "h").add_request_result 100 true).delay_data =
        (CdnItem.init "h").delay_data.tail ++ [100]) ∧
    ((CdnItem.init "h").delay_data.length ≤ MAX_DELAY_DATA) ∧
    ((CdnItem.init "h").delay_count = (CdnItem.init "h").delay_data.sum) :=
  C5_delay_window (CdnItem.init "h") 100 true "h" (by decide) rfl

/-- C10: `add_request_result` increments `request_count` before the
success-rate division (so that divisor is positive even on the first
call); on the success branch the sample is appended before the
average-delay division (so the window is non-empty); a never-reported
endpoint has weight 0. -/
theorem C10_division_totality (s : CdnItem) (delay : ℚ) (success : Bool) (host : String) :
    ((s.add_request_result delay success).request_count = s.request_count + 1) ∧
    (0 < (s.add_request_result delay success).request_count) ∧
    (success = true → 0 < (s.add_request_result delay success).delay_data.length) ∧
    ((CdnItem.init host).weight = 0) := by
  have hrc : (s.add_request_result delay success).request_count = s.request_count + 1 := by
    cases success with
    | false => exact (add_failure_fields s delay).1
    | true => exact (add_success_fields s delay).1
  refine ⟨hrc, by omega, ?_, rfl⟩
  intro hs
  subst hs
  obtain ⟨-, -, hd, -⟩ := add_success_fields s delay
  rw [hd]
  simp

/-- Witness for C10 at the concrete input `CdnItem.init "h"`, delay 50,
success. -/
theorem C10_division_totality_witness :
    (((CdnItem.init "h").add_request_result 50 true).request_count =
      (CdnItem.init "h").request_count + 1) ∧
    (0 < ((CdnItem.init "h").add_request_result 50 true).request_count) ∧
    (true = true → 0 < ((CdnItem.init "h").add_request_result 50 true).delay_data.length) ∧
    ((CdnItem.init "w").weight = 0) :=
  C10_division_totality (CdnItem.init "h") 50 true "w"

/-! ## Lemmas about `resort_cdn_list` and the restore loop -/

theorem assignIdx_length (n : Nat) (l : List CdnItem) :
    (assignIdx n l).length = l.length := by
  induction l generalizing n with
  | nil => rfl
  | cons c cs ih => simp [assignIdx, ih]

theorem assignIdx_getElem? (n : Nat) (l : List CdnItem) (i : Nat) :
    (assignIdx n l)[i]? = l[i]?.map (fun c => { c with list_index := n + i }) := by
  induction l generalizing n i with
  | nil => simp [assignIdx]
  | cons c cs ih =>
      cases i with
      | zero => simp [assignIdx]
      | succ j =>
          simp only [assignIdx, List.getElem?_cons_succ, ih (n + 1) j]
          have hnj : n + 1 + j = n + (j + 1) := by omega
          rw [hnj]

theorem assignIdx_map_weight (n : Nat) (l : List CdnItem) :
    (assignIdx n l).map CdnItem.weight = l.map CdnItem.weight := by
  induction l generalizing n with
  | nil => rfl
  | cons c cs ih => simp [assignIdx, ih]

theorem assignIdx_map_host (n : Nat) (l : List CdnItem) :
    (assignIdx n l).map CdnItem.host = l.map CdnItem.host := by
  induction l generalizing n with
  | nil => rfl
  | cons c cs ih => simp [assignIdx, ih]

theorem mem_assignIdx (n : Nat) (l : List CdnItem) (c' : CdnItem)
    (h : c' ∈ assignIdx n l) :
    ∃ c ∈ l, c'.host = c.host ∧ c'.request_count = c.request_count ∧
      c'.success_count = c.success_count ∧ c'.weight = c.weight := by
  induction l generalizing n with
  | nil => simp [assignIdx] at h
  | cons c cs ih =>
      simp only [assignIdx, List.mem_cons] at h
      rcases h with h | h
      · exact ⟨c, List.mem_cons_self c cs, by simp [h]⟩
      · obtain ⟨d, hd, hfields⟩ := ih (n + 1) h
        exact ⟨d, List.mem_cons_of_mem c hd, hfields⟩

theorem assignIdx_mem_of_mem (n : Nat) (l : List CdnItem) (c : CdnItem)
    (h : c ∈ l) :
    ∃ m, ({ c with list_index := m } : CdnItem) ∈ assignIdx n l := by
  induction l generalizing n with
  | nil => simp at h
  | cons d ds ih =>
      rcases List.mem_cons.mp h with h | h
      · exact ⟨n, by simp [assignIdx, h]⟩
      · obtain ⟨m, hm⟩ := ih (n + 1) h
        exact ⟨m, by simp [assignIdx, hm]⟩

/-- The comparator used by `resort_cdn_list` is transitive. -/
theorem wtLe_trans (a b c : CdnItem)
    (h1 : decide (b.weight ≤ a.weight) = true)
    (h2 : decide (c.weight ≤ b.weight) = true) :
    decide (c.weight ≤ a.weight) = true := by
  simp only [decide_eq_true_eq] at *
  exact le_trans h2 h1

/-- The comparator used by `resort_cdn_list` is total. -/
theorem wtLe_total (a b : CdnItem) :
    (decide (b.weight ≤ a.weight) || decide (a.weight ≤ b.weight)) = true := by
  rcases le_total b.weight a.weight with h | h <;> simp [h]

/-- `resort_cdn_list` produces a list that is sorted descending by
weight. -/
theorem resort_sorted (l : List CdnItem) :
    (resort_cdn_list l).Pairwise (fun a b => b.weight ≤ a.weight) := by
  have hs := @List.sorted_mergeSort CdnItem (fun a b => decide (b.weight ≤ a.weight))
    wtLe_trans wtLe_total l
  have hw : (resort_cdn_list l).map CdnItem.weight =
      (l.mergeSort (fun a b => decide (b.weight ≤ a.weight))).map CdnItem.weight :=
    assignIdx_map_weight 0 _
  have h1 : ((resort_cdn_list l).map CdnItem.weight).Pairwise (fun x y => y ≤ x) := by
    rw [hw, List.pairwise_map]
    simpa [decide_eq_true_eq] using hs
  rw [List.pairwise_map] at h1
  exact h1

/-- `resort_cdn_list` writes each item's position into `list_index`. -/
theorem resort_positions (l : List CdnItem) (i : Nat) (hi : i < (resort_cdn_list l).length) :
    (resort_cdn_list l)[i]?.map CdnItem.list_index = some i := by
  unfold resort_cdn_list at *
  rw [assignIdx_getElem?]
  rw [assignIdx_length] at hi
  rw [List.getElem?_eq_getElem hi]
  simp

/-- `resort_cdn_list` preserves every item's statistics (everything but
`list_index`). -/
theorem resort_mem (l : List CdnItem) (c : CdnItem) (h : c ∈ l) :
    ∃ c' ∈ resort_cdn_list l, c'.host = c.host ∧ c'.request_count = c.request_count ∧
      c'.success_count = c.success_count ∧ c'.weight = c.weight := by
  have hmem : c ∈ l.mergeSort (fun a b => decide (b.weight ≤ a.weight)) :=
    (List.mergeSort_perm l _).mem_iff.mpr h
  obtain ⟨m, hm⟩ := assignIdx_mem_of_mem 0 _ c hmem
  exact ⟨{ c with list_index := m }, hm, rfl, rfl, rfl, rfl⟩

/-- `resort_cdn_list` permutes the hosts of the pool. -/
theorem resort_map_host_perm (l : List CdnItem) :
    ((resort_cdn_list l).map CdnItem.host).Perm (l.map CdnItem.host) := by
  rw [resort_cdn_list, assignIdx_map_host]
  exact (List.mergeSort_perm l _).map CdnItem.host

/-- A successful `applyRecord` never changes the host column. -/
theorem applyRecord_ok_map_host (l l' : List CdnItem) (r : SnapRecord)
    (h : applyRecord l r = Except.ok l') :
    l'.map CdnItem.host = l.map CdnItem.host := by
  unfold applyRecord at h
  split at h
  · cases h
    rw [List.map_map]
    apply List.map_congr_left
    intro c hc
    by_cases hh : c.host = r.host <;> simp [Function.comp, hh]
  · cases h

/-- Applying a record built from a member of a duplicate-free pool is the
identity. -/
theorem applyRecord_self (l : List CdnItem) (c : CdnItem)
    (hnd : (l.map CdnItem.host).Nodup) (hc : c ∈ l) :
    applyRecord l ⟨c.host, c.request_count, c.success_count, c.weight⟩ = Except.ok l := by
  unfold applyRecord
  rw [if_pos]
  · congr 1
    conv_rhs => rw [show l = l.map id from (List.map_id l).symm]
    apply List.map_congr_left
    intro x hx
    by_cases hh : x.host = c.host
    · have hxc : x = c := List.inj_on_of_nodup_map hnd hx hc hh
      subst hxc
      simp
    · simp [hh]
  · rw [List.any_eq_true]
    exact ⟨c, hc, by simp⟩

/-- A record whose host is untracked makes `applyRecord` raise. -/
theorem applyRecord_not_mem (l : List CdnItem) (r : SnapRecord)
    (h : ∀ c ∈ l, c.host ≠ r.host) :
    applyRecord l r = Except.error ("KeyError: " ++ r.host) := by
  unfold applyRecord
  rw [if_neg]
  intro hany
  rw [List.any_eq_true] at hany
  obtain ⟨c, hc, hh⟩ := hany
  exact h c hc (by simpa using hh)

/-- Items matched by no record survive `applyRecord` unchanged. -/
theorem applyRecord_preserves (l l' : List CdnItem) (r : SnapRecord) (c : CdnItem)
    (h : applyRecord l r = Except.ok l') (hc : c ∈ l) (hne : c.host ≠ r.host) :
    c ∈ l' := by
  unfold applyRecord at h
  split at h
  · cases h
    have := List.mem_map_of_mem (fun c =>
      if c.host == r.host then
        ({ c with request_count := r.request_count
                  success_count := r.success_count
                  weight := r.weight } : CdnItem)
      else c) hc
    simpa [hne] using this
  · cases h

theorem applyRecords_self (l : List CdnItem) (rs : List SnapRecord)
    (h : ∀ r ∈ rs, applyRecord l r = Except.ok l) :
    applyRecords l rs = Except.ok l := by
  induction rs with
  | nil => rfl
  | cons r rs ih =>
      simp only [applyRecords, h r (List.mem_cons_self r rs)]
      exact ih (fun r' hr' => h r' (List.mem_cons_of_mem r hr'))

theorem applyRecords_ok_map_host (l l' : List CdnItem) (rs : List SnapRecord)
    (h : applyRecords l rs = Except.ok l') :
    l'.map CdnItem.host = l.map CdnItem.host := by
  induction rs generalizing l with
  | nil => cases h; rfl
  | cons r rs ih =>
      simp only [applyRecords] at h
      split at h
      · next l1 h1 =>
          rw [ih l1 h, applyRecord_ok_map_host l l1 r h1]
      · cases h

theorem applyRecords_error_of_untracked (l : List CdnItem) (rs : List SnapRecord)
    (h : ∃ r ∈ rs, ∀ c ∈ l, c.host ≠ r.host) :
    ∃ e, applyRecords l rs = Except.error e := by
  induction rs generalizing l with
  | nil => simp at h
  | cons r rs ih =>
      obtain ⟨r0, hr0, huntracked⟩ := h
      rcases List.mem_cons.mp hr0 with h0 | h0
      · subst h0
        exact ⟨"KeyError: " ++ r0.host, by
          simp only [applyRecords, applyRecord_not_mem l r0 huntracked]⟩
      · simp only [applyRecords]
        split
        · next l1 h1 =>
            apply ih l1
            refine ⟨r0, h0, ?_⟩
            intro c hc
            have hhost : c.host ∈ l1.map CdnItem.host := List.mem_map_of_mem _ hc
            rw [applyRecord_ok_map_host l l1 r h1] at hhost
            obtain ⟨c0, hc0, hch⟩ := List.mem_map.mp hhost
            rw [← hch]
            exact huntracked c0 hc0
        · next e _ => exact ⟨e, rfl⟩

theorem applyRecords_preserves (l l' : List CdnItem) (rs : List SnapRecord) (c : CdnItem)
    (h : applyRecords l rs = Except.ok l') (hc : c ∈ l)
    (hne : ∀ r ∈ rs, r.host ≠ c.host) :
    c ∈ l' := by
  induction rs generalizing l with
  | nil => cases h; exact hc
  | cons r rs ih =>
      simp only [applyRecords] at h
      split at h
      · next l1 h1 =>
          refine ih l1 h ?_ (fun r' hr' => hne r' (List.mem_cons_of_mem r hr'))
          exact applyRecord_preserves l l1 r c h1 hc
            (fun hh => hne r (List.mem_cons_self r rs) hh.symm)
      · cases h

/-! ## Claim theorems about the registry operations -/

/-- C1 (code bug evidence): evaluating `report_cdn_result` on the pool
`["a", "b"]` with a successful report for `"b"` moves `"b"` to the front
of `cdn_list` but leaves its stored `list_index` at `1` (the bubble walk,
cdn.py lines 229–245, updates the displaced neighbour's `list_index` but
never the moved item's own), so both items end up with `list_index = 1`
and `cdn_list[item.list_index]` is `"a"`, not `"b"`:
the invariant `cdn_list[item.list_index] == item` is violated right after
the first completed call. -/
theorem C1_position_invariant_broken :
    (report_cdn_result (load_items ["a", "b"]) "b" 0 true).map
      (fun l => l.map (fun c => (c.host, c.list_index))) =
    Except.ok [("b", 1), ("a", 1)] := by
  have hB : (CdnItem.mk "b" 1 0 0 [] 0 0 0).add_request_result 0 true =
      CdnItem.mk "b" 1 1 1 [0] 0 1 11000 := by
    simp [CdnItem.add_request_result, SUCCESS_RATE_WEIGHT, BASE_DELAY_MS,
      AVG_DELAY_WEIGHT, MAX_DELAY_DATA]
    norm_num
  simp [report_cdn_result, load_items, loadAux, CdnItem.init, hB, bubbleUp]
  rfl

/-- C2 (code bug evidence): reporting a host that is not tracked raises
`KeyError` out of `report_cdn_result` (cdn.py line 217 indexes
`self.cdn_map[host]` before the unreachable `if not cdn_item` guard),
rather than being ignored. -/
theorem C2_unknown_host_raises :
    report_cdn_result (load_items ["a"]) "x" 5 true =
      Except.error "KeyError: x" := by rfl

/-- C6: on a non-empty pool `get_cdn` returns the host of an endpoint
within the first `min 100 (pool size)` positions of `cdn_list`; on an
empty pool it produces a distinguishable failure (Python raises
`IndexError` from `random.choice` on the empty slice). -/
theorem C6_get_cdn_top_slice (l : List CdnItem) (k : Nat) :
    (l = [] → get_cdn l k = Except.error "IndexError") ∧
    (l ≠ [] → ∃ i c, i < min 100 l.length ∧ l[i]? = some c ∧
      get_cdn l k = Except.ok c.host) := by
  constructor
  · intro h
    subst h
    rfl
  · intro h
    have htop : l.take 100 ≠ [] := by
      rw [Ne, List.take_eq_nil_iff]
      push_neg
      exact ⟨by norm_num, h⟩
    have hpos : 0 < (l.take 100).length := List.length_pos.mpr htop
    have hk : k % (l.take 100).length < (l.take 100).length := Nat.mod_lt _ hpos
    have hlen : (l.take 100).length = min 100 l.length := List.length_take 100 l
    refine ⟨k % (l.take 100).length, (l.take 100).get ⟨k % (l.take 100).length, hk⟩,
      by rw [← hlen]; exact hk, ?_, ?_⟩
    · have h100 : k % (l.take 100).length < 100 := by
        have h2 := hk
        rw [hlen] at h2
        omega
      have e1 : l[k % (l.take 100).length]? = (l.take 100)[k % (l.take 100).length]? := by
        rw [List.getElem?_take, if_pos h100]
      rw [e1, List.getElem?_eq_getElem hk]
      rfl
    · simp [get_cdn, htop]

/-- Witness for C6 on the one-host pool with draw 7. -/
theorem C6_get_cdn_top_slice_witness :
    ∃ i c, i < min 100 (load_items ["a"]).length ∧ (load_items ["a"])[i]? = some c ∧
      get_cdn (load_items ["a"]) 7 = Except.ok c.host :=
  (C6_get_cdn_top_slice (load_items ["a"]) 7).2 (by decide)

/-- C8: a snapshot that is absent/malformed, or whose version field
defaults to or is at most 1, is discarded whole: `restore_items` returns
the registry exactly as it was, with the `False` result. -/
theorem C8_outdated_snapshot (l : List CdnItem) (snap : Option Snapshot)
    (h : snap = none ∨ ∃ s, snap = some s ∧ s.version.getD 1 ≤ 1) :
    restore_items l snap = Except.ok (l, false) := by
  rcases h with h | ⟨s, rfl, hv⟩
  · subst h
    rfl
  · simp [restore_items, hv]

/-- Witness for C8: a snapshot with no version field (defaulting to 1)
carrying a record for the tracked host is ignored entirely. -/
theorem C8_outdated_snapshot_witness :
    restore_items (load_items ["a"]) (some ⟨none, none, [⟨"a", 3, 2, 5⟩]⟩) =
      Except.ok (load_items ["a"], false) :=
  C8_outdated_snapshot (load_items ["a"]) (some ⟨none, none, [⟨"a", 3, 2, 5⟩]⟩)
    (Or.inr ⟨⟨none, none, [⟨"a", 3, 2, 5⟩]⟩, rfl, by decide⟩)

/-- C7: restoring from the snapshot written by `save_available_items`
reproduces every endpoint's `request_count`, `success_count` and `weight`
and leaves the sequence fully sorted descending by weight with every
`list_index` equal to the item's actual position.  Hosts are pairwise
distinct, as guaranteed by `cdn_map`'s keys. -/
theorem C7_save_restore_round_trip (l : List CdnItem) (now : String)
    (hnd : (l.map CdnItem.host).Nodup) :
    ∃ l', restore_items l (some (save_available_items l now)) = Except.ok (l', true) ∧
      (∀ c ∈ l, ∃ c' ∈ l', c'.host = c.host ∧ c'.request_count = c.request_count ∧
        c'.success_count = c.success_count ∧ c'.weight = c.weight) ∧
      l'.Pairwise (fun a b => b.weight ≤ a.weight) ∧
      (∀ i, i < l'.length → l'[i]?.map CdnItem.list_index = some i) := by
  have happ : applyRecords l (save_available_items l now).cdn_list = Except.ok l := by
    apply applyRecords_self
    intro r hr
    simp only [save_available_items, List.mem_map] at hr
    obtain ⟨c, hc, rfl⟩ := hr
    exact applyRecord_self l c hnd hc
  refine ⟨resort_cdn_list l, ?_, fun c hc => resort_mem l c hc, resort_sorted l,
    resort_positions l⟩
  simp only [restore_items]
  rw [if_neg (by simp [save_available_items]), happ]

/-- Witness for C7 on the one-host pool. -/
theorem C7_save_restore_round_trip_witness :
    ∃ l', restore_items (load_items ["a"])
        (some (save_available_items (load_items ["a"]) "t")) = Except.ok (l', true) ∧
      (∀ c ∈ load_items ["a"], ∃ c' ∈ l', c'.host = c.host ∧
        c'.request_count = c.request_count ∧
        c'.success_count = c.success_count ∧ c'.weight = c.weight) ∧
      l'.Pairwise (fun a b => b.weight ≤ a.weight) ∧
      (∀ i, i < l'.length → l'[i]?.map CdnItem.list_index = some i) :=
  C7_save_restore_round_trip (load_items ["a"]) "t" (by decide)

/-- C9 counterexample: a valid (version 2) snapshot holding a record for
the untracked host `"x"` makes `restore_items` raise `KeyError`
(cdn.py line 172 indexes `self.cdn_map[x.get('host')]` with no guard),
contradicting the claim that such a record causes no failure. -/
theorem C9_untracked_record_raises :
    restore_items (load_items ["a"]) (some ⟨some 2, none, [⟨"x", 1, 1, 5⟩]⟩) =
      Except.error "KeyError: x" := by rfl

/-- C9 (amended): for a valid (version > 1) snapshot, a persisted record
whose host is untracked makes `restore_items` fail with a `KeyError`
instead of being skipped; whenever the restore returns successfully the
pool's hosts are exactly the original ones (no new endpoint entry is
ever created) and every endpoint matched by no record keeps its
`request_count`, `success_count` and `weight`. -/
theorem C9_restore_merge (l : List CdnItem) (s : Snapshot)
    (hv : 1 < s.version.getD 1) :
    ((∃ r ∈ s.cdn_list, ∀ c ∈ l, c.host ≠ r.host) →
      ∃ e, restore_items l (some s) = Except.error e) ∧
    (∀ l' b, restore_items l (some s) = Except.ok (l', b) →
      ((l'.map CdnItem.host).Perm (l.map CdnItem.host) ∧
        ∀ c ∈ l, (∀ r ∈ s.cdn_list, r.host ≠ c.host) →
          ∃ c' ∈ l', c'.host = c.host ∧ c'.request_count = c.request_count ∧
            c'.success_count = c.success_count ∧ c'.weight = c.weight)) := by
  have hv' : ¬(s.version.getD 1 ≤ 1) := not_le.mpr hv
  constructor
  · intro huntracked
    obtain ⟨e, herr⟩ := applyRecords_error_of_untracked l s.cdn_list huntracked
    refine ⟨e, ?_⟩
    simp only [restore_items]
    rw [if_neg hv', herr]
  · intro l' b h
    simp only [restore_items] at h
    rw [if_neg hv'] at h
    cases happ : applyRecords l s.cdn_list with
    | error e => rw [happ] at h; cases h
    | ok l1 =>
        rw [happ] at h
        cases h
        have hhost : l1.map CdnItem.host = l.map CdnItem.host :=
          applyRecords_ok_map_host l l1 s.cdn_list happ
        constructor
        · have hperm := resort_map_host_perm l1
          rwa [hhost] at hperm
        · intro c hc hnomatch
          have hcl1 : c ∈ l1 := applyRecords_preserves l l1 s.cdn_list c happ hc hnomatch
          exact resort_mem l1 c hcl1

/-- Witness for C9 (amended) on the one-host pool with an empty valid
snapshot. -/
theorem C9_restore_merge_witness :
    ((∃ r ∈ (⟨some 2, none, []⟩ : Snapshot).cdn_list,
        ∀ c ∈ load_items ["a"], c.host ≠ r.host) →
      ∃ e, restore_items (load_items ["a"]) (some ⟨some 2, none, []⟩) = Except.error e) ∧
    (∀ l' b, restore_items (load_items ["a"]) (some ⟨some 2, none, []⟩) = Except.ok (l', b) →
      ((l'.map CdnItem.host).Perm ((load_items ["a"]).map CdnItem.host) ∧
        ∀ c ∈ load_items ["a"], (∀ r ∈ (⟨some 2, none, []⟩ : Snapshot).cdn_list,
            r.host ≠ c.host) →
          ∃ c' ∈ l', c'.host = c.host ∧ c'.request_count = c.request_count ∧
            c'.success_count = c.success_count ∧ c'.weight = c.weight)) :=
  C9_restore_merge (load_items ["a"]) ⟨some 2, none, []⟩ (by decide)

end Py12306
